import Mathlib

/-!
# Shallow embedding of `src/src/main/window/WindowManager.ts` (xplorer)

This file embeds the window-orchestration layer of the xplorer desktop shell:
the window registry (`WindowManager.windows`, a JS `Map` modelled as an
insertion-ordered association list), the IPC entry points
(`window:transferTab`, `window:showDropIndicator`, `window:getBounds`,
`window:setUIStyle`), window creation (`createWindow`), the backend event
fan-out (`zmqBridge.onEvent`), and the close-to-tray interception.

Conventions of the embedding:
* The JS `Map<string, BrowserWindow>` is an insertion-ordered association
  list; `Map.set` overwrites in place for an existing key and appends a new
  key, `Map.delete` removes the (unique) entry, matching JS semantics.
* A `BrowserWindow`'s observable state is the part the orchestration layer
  touches: visibility, the once-only `ready-to-show` latch, the tab payload
  captured by the ready continuation, the ordered log of messages sent to its
  `webContents`, its position options and native background colour/material.
  The native width/height computation (floating-point scaling of the screen
  work area) is not modelled; no property below depends on it.
* Exceptions inside the `try` of `applyWindowStyle` are modelled by an
  `Except` whose error value carries the window state at the throw point
  (mutations before the throw persist), and the `catch` turns it back into a
  plain state.
-/

namespace Xplorer

/-- `process.platform`, fixed for the process lifetime. -/
inductive Platform where
  | win32
  | darwin
  | linux
deriving DecidableEq

/-- The process-wide UI style: `'classic' | 'glass'`. -/
inductive UIStyle where
  | classic
  | glass
deriving DecidableEq

/-- `TabData` as declared in `WindowManager.ts`. -/
structure TabData where
  id : String
  path : String
  title : String
  history : List String
  historyIndex : Int
deriving DecidableEq

/-- A message sent to one window's `webContents` by this layer, in order. -/
inductive RendererMsg where
  /-- `tab:receive` (tab transferred to an existing window). -/
  | tabReceive (tab : TabData)
  /-- `tab:dropIndicator`. -/
  | dropIndicator (visible : Bool)
  /-- `xp:event` (backend filesystem event, opaque payload). -/
  | xpEvent (payload : Nat)
  /-- `tab:initWithData` (seed tab delivered after `ready-to-show`). -/
  | tabInitWithData (tab : TabData)
deriving DecidableEq

/-- The orchestration-visible state of one `BrowserWindow`. -/
structure WindowState where
  /-- Whether the window is currently shown (`show: false` at creation). -/
  visible : Bool
  /-- Whether the once-only `ready-to-show` handler has fired. -/
  readyFired : Bool
  /-- The `options.tabData` captured by the `ready-to-show` continuation. -/
  seedTab : Option TabData
  /-- Ordered log of messages delivered to this window's `webContents`. -/
  inbox : List RendererMsg
  /-- `options.x` passed to the `BrowserWindow` constructor. -/
  posX : Option Int
  /-- `options.y` passed to the `BrowserWindow` constructor. -/
  posY : Option Int
  /-- `transparent` constructor flag (`true` exactly on win32). -/
  transparent : Bool
  /-- Current native background colour string. -/
  backgroundColor : String
  /-- Current native background material, when one has been applied. -/
  backgroundMaterial : Option String
deriving DecidableEq

/-- The rectangle returned by `window.getBounds()`; only the position options
are modelled (the width/height arithmetic is floating point and unused by
every property below). -/
structure Bounds where
  x : Option Int
  y : Option Int
deriving DecidableEq

/-- `window.getBounds()`. -/
def windowGetBounds (w : WindowState) : Bounds :=
  { x := w.posX, y := w.posY }

/-- JS `Map.get`. -/
def assocGet (l : List (Nat × WindowState)) (k : Nat) : Option WindowState :=
  match l with
  | [] => none
  | (k', v) :: rest => if k' = k then some v else assocGet rest k

/-- JS `Map.set`: overwrite in place for an existing key, append a new key. -/
def assocSet (l : List (Nat × WindowState)) (k : Nat) (v : WindowState) :
    List (Nat × WindowState) :=
  match l with
  | [] => [(k, v)]
  | (k', v') :: rest =>
      if k' = k then (k, v) :: rest else (k', v') :: assocSet rest k v

/-- JS `Map.delete`: remove the first (in a `Map`, only) entry with key `k`. -/
def assocRemove (l : List (Nat × WindowState)) (k : Nat) :
    List (Nat × WindowState) :=
  match l with
  | [] => []
  | (k', v') :: rest =>
      if k' = k then rest else (k', v') :: assocRemove rest k

/-- JS `Map.keys()` in insertion order. -/
def keysOf (l : List (Nat × WindowState)) : List Nat :=
  l.map Prod.fst

/-- The whole mutable state touched by `WindowManager.ts`: the module-level
cells (`currentUIStyle`, `closeToTrayEnabled`, `onTrayVisibilityUpdate`), the
registry `windows`, the number of `zmqBridge.onEvent` subscriptions (one is
registered per `createWindow` call), the fresh-id supply, plus ghost history
fields (`usedIds`, `removedIds`, `trayNotifications`) recording ids ever
issued, ids deregistered by the `closed` handler, and calls to the tray
visibility callback. Environment facts fixed per process (`platform`,
`nativeTheme.shouldUseDarkColors`, whether `setBackgroundMaterial` exists,
and whether the native style calls throw) are carried as immutable fields. -/
structure WMState where
  platform : Platform
  darkColors : Bool
  supportsBackgroundMaterial : Bool
  backgroundMaterialThrows : Bool
  closeToTrayEnabled : Bool
  trayCallbackSet : Bool
  trayNotifications : Nat
  currentUIStyle : UIStyle
  windows : List (Nat × WindowState)
  eventHandlers : Nat
  idCounter : Nat
  usedIds : List Nat
  removedIds : List Nat
deriving DecidableEq

/-- Modelled from the spec: window ids come from `uuidv4` (external `uuid`
package, not part of this repository); its contract — a process-unique id per
call, never repeated — is modelled as a fresh supply issuing the next natural
number. -/
def uuidv4 (n : Nat) : Nat := n

/-- One call to the tray visibility callback: `onTrayVisibilityUpdate()` runs
only when a callback has been registered. -/
def notifyTray (st : WMState) : WMState :=
  if st.trayCallbackSet then
    { st with trayNotifications := st.trayNotifications + 1 }
  else st

/-- `setCloseToTrayEnabled`. -/
def setCloseToTrayEnabled (enabled : Bool) (st : WMState) : WMState :=
  { st with closeToTrayEnabled := enabled }

/-- `setTrayVisibilityCallback` (registering the external controller). -/
def setTrayVisibilityCallback (st : WMState) : WMState :=
  { st with trayCallbackSet := true }

/-- The `BrowserWindow` constructor options as `createWindow` fills them in:
hidden (`show: false`), `transparent` on win32, background colour from the
platform and the dark-mode check.  Note they never consult `currentUIStyle`. -/
def newWindowState (st : WMState) (tabData : Option TabData) (x y : Option Int) :
    WindowState :=
  { visible := false
    readyFired := false
    seedTab := tabData
    inbox := []
    posX := x
    posY := y
    transparent := st.platform = Platform.win32
    backgroundColor :=
      if st.platform = Platform.win32 then "#00000000"
      else if st.darkColors then "#1e1e1e" else "#ffffff"
    backgroundMaterial := none }

/-- `WindowManager.createWindow(options)`: create the hidden `BrowserWindow`,
register it in `windows` under a fresh uuid, and register one more
`zmqBridge.onEvent` forwarding handler.  Returns the new state and the new
window's id. -/
def createWindow (tabData : Option TabData) (x y : Option Int) (st : WMState) :
    WMState × Nat :=
  let windowId := uuidv4 st.idCounter
  ({ st with
      windows := assocSet st.windows windowId (newWindowState st tabData x y)
      eventHandlers := st.eventHandlers + 1
      idCounter := st.idCounter + 1
      usedIds := st.usedIds ++ [windowId] },
   windowId)

/-- The effect of the `ready-to-show` continuation on the window itself:
`window.show()`, then, when the window was seeded, `tab:initWithData` is sent
after the 100 ms timeout. -/
def readyWindow (w : WindowState) : WindowState :=
  { w with
      readyFired := true
      visible := true
      inbox :=
        match w.seedTab with
        | some t => w.inbox ++ [RendererMsg.tabInitWithData t]
        | none => w.inbox }

/-- The once-only `ready-to-show` handler of window `id` (its `show()` also
fires the `show` event, whose handler notifies the tray controller). -/
def readyToShow (id : Nat) (st : WMState) : WMState :=
  match assocGet st.windows id with
  | none => st
  | some w =>
      if w.readyFired then st
      else notifyTray { st with windows := assocSet st.windows id (readyWindow w) }

/-- A close request on window `id` (the `close` handler followed, when the
close is not prevented, by the `closed` handler): if close-to-tray is enabled
and the registry holds exactly one window, `event.preventDefault()` and
`window.hide()` and notify the tray controller; otherwise the window is
destroyed, the `closed` handler deletes it from `windows`, and the tray
controller is notified. -/
def requestClose (id : Nat) (st : WMState) : WMState :=
  match assocGet st.windows id with
  | none => st
  | some w =>
      if st.closeToTrayEnabled && st.windows.length == 1 then
        notifyTray { st with windows := assocSet st.windows id { w with visible := false } }
      else
        notifyTray
          { st with
              windows := assocRemove st.windows id
              removedIds := st.removedIds ++ [id] }

/-- One emission from the backend event stream.  Every `createWindow` call
registered its own `zmqBridge.onEvent` handler, and each handler forwards the
event to every currently registered window, so each window's `webContents`
receives `st.eventHandlers` copies of the payload, consecutively. -/
def emitBackendEvent (payload : Nat) (st : WMState) : WMState :=
  { st with
      windows := st.windows.map fun p =>
        (p.1, { p.2 with
                  inbox := p.2.inbox ++
                    List.replicate st.eventHandlers (RendererMsg.xpEvent payload) }) }

/-- IPC `window:transferTab`: deliver `tab:receive` to the target window when
the id resolves in the registry; otherwise do nothing. -/
def transferTab (targetWindowId : Nat) (tabData : TabData) (st : WMState) : WMState :=
  match assocGet st.windows targetWindowId with
  | some w =>
      { st with
          windows := assocSet st.windows targetWindowId
            { w with inbox := w.inbox ++ [RendererMsg.tabReceive tabData] } }
  | none => st

/-- IPC `window:showDropIndicator`. -/
def showDropIndicator (targetWindowId : Nat) (visible : Bool) (st : WMState) : WMState :=
  match assocGet st.windows targetWindowId with
  | some w =>
      { st with
          windows := assocSet st.windows targetWindowId
            { w with inbox := w.inbox ++ [RendererMsg.dropIndicator visible] } }
  | none => st

/-- The `try` body of `WindowManager.applyWindowStyle` (win32 branch):
`setBackgroundColor` first, then `setBackgroundMaterial` when the function
exists; a throw is modelled as `Except.error` carrying the window state at
the throw point, so mutations made before the throw persist. -/
def applyWindowStyleTry (supportsBM throws : Bool) (style : UIStyle)
    (w : WindowState) : Except WindowState WindowState :=
  match style with
  | UIStyle.glass =>
      let w1 := { w with backgroundColor := "#00000000" }
      if supportsBM then
        if throws then Except.error w1
        else Except.ok { w1 with backgroundMaterial := some "acrylic" }
      else Except.ok w1
  | UIStyle.classic =>
      let w1 := { w with backgroundColor := "#00000001" }
      if supportsBM then
        if throws then Except.error w1
        else Except.ok { w1 with backgroundMaterial := some "none" }
      else Except.ok w1

/-- `WindowManager.applyWindowStyle`: early return off win32; on win32 the
`try`/`catch` makes the operation total — an error is logged and the window
keeps the state it had at the throw point. -/
def applyWindowStyle (platform : Platform) (supportsBM throws : Bool)
    (style : UIStyle) (w : WindowState) : WindowState :=
  if platform ≠ Platform.win32 then w
  else
    match applyWindowStyleTry supportsBM throws style w with
    | Except.ok w' => w'
    | Except.error w' => w'

/-- IPC `window:setUIStyle`: store the new style in `currentUIStyle`, then
apply it to every registered window (the `previousStyle` comparison only
guards a log line). -/
def setUIStyle (style : UIStyle) (st : WMState) : WMState :=
  { st with
      currentUIStyle := style
      windows := st.windows.map fun p =>
        (p.1, applyWindowStyle st.platform st.supportsBackgroundMaterial
          st.backgroundMaterialThrows style p.2) }

/-- IPC `window:getAllIds`: `Array.from(this.windows.keys())`. -/
def getAllIds (st : WMState) : List Nat :=
  keysOf st.windows

/-- IPC `window:getBounds`: the bounds of the target window, or `null`. -/
def getBoundsHandler (windowId : Nat) (st : WMState) : Option Bounds :=
  (assocGet st.windows windowId).map windowGetBounds

/-- `WindowManager.getWindow`: `this.windows.get(id) || null`. -/
def getWindow (id : Nat) (st : WMState) : Option WindowState :=
  assocGet st.windows id

/-- `WindowManager.getMainWindow`: the first registered window, or `null`. -/
def getMainWindow (st : WMState) : Option WindowState :=
  (st.windows.head?).map Prod.snd

/-- The entry points of the subsystem, for reasoning over whole histories. -/
inductive Op where
  | create (tabData : Option TabData) (x y : Option Int)
  | ready (id : Nat)
  | close (id : Nat)
  | emit (payload : Nat)
  | transfer (targetWindowId : Nat) (tabData : TabData)
  | indicator (targetWindowId : Nat) (visible : Bool)
  | style (s : UIStyle)
  | closeToTray (enabled : Bool)
  | trayCallback
deriving DecidableEq

/-- One event-loop turn. -/
def step (op : Op) (st : WMState) : WMState :=
  match op with
  | Op.create tabData x y => (createWindow tabData x y st).1
  | Op.ready id => readyToShow id st
  | Op.close id => requestClose id st
  | Op.emit payload => emitBackendEvent payload st
  | Op.transfer id tabData => transferTab id tabData st
  | Op.indicator id visible => showDropIndicator id visible st
  | Op.style s => setUIStyle s st
  | Op.closeToTray enabled => setCloseToTrayEnabled enabled st
  | Op.trayCallback => setTrayVisibilityCallback st

/-- Run a history of operations left to right. -/
def run (ops : List Op) (st : WMState) : WMState :=
  ops.foldl (fun s op => step op s) st

/-- Process start: empty registry, style `classic`, no subscriptions yet. -/
def initState (platform : Platform) (darkColors supportsBM bmThrows : Bool) :
    WMState :=
  { platform := platform
    darkColors := darkColors
    supportsBackgroundMaterial := supportsBM
    backgroundMaterialThrows := bmThrows
    closeToTrayEnabled := false
    trayCallbackSet := false
    trayNotifications := 0
    currentUIStyle := UIStyle.classic
    windows := []
    eventHandlers := 0
    idCounter := 0
    usedIds := []
    removedIds := [] }

/-- The win32 reference environment used for concrete scenarios. -/
def st0 : WMState :=
  initState Platform.win32 false true false

/-- A concrete tab payload for concrete scenarios. -/
def sampleTab : TabData :=
  { id := "tab-1", path := "/home/user", title := "user",
    history := ["/", "/home"], historyIndex := 1 }

/-- The window state `createWindow` registers in the `st0` environment when no
tab and no position are given. -/
def freshWin32Window : WindowState :=
  { visible := false, readyFired := false, seedTab := none, inbox := []
    posX := none, posY := none, transparent := true
    backgroundColor := "#00000000", backgroundMaterial := none }

/-- Whether a renderer message is the `tab:initWithData` seeding message. -/
def isTabInitMsg : RendererMsg → Bool
  | RendererMsg.tabInitWithData _ => true
  | _ => false

/-- The registry invariant tying `windows` to the ghost history: every id ever
issued is recorded once (`usedIds = range idCounter` under the fresh-supply
model), removals only name issued ids, and the registry's key list is exactly
the issued ids not yet removed, in creation order. -/
def Inv (st : WMState) : Prop :=
  st.usedIds = List.range st.idCounter
  ∧ st.removedIds ⊆ st.usedIds
  ∧ getAllIds st = st.usedIds.filter (fun i => decide (i ∉ st.removedIds))

/-- The pending-seed invariant for window `id` between its creation and its
`ready-to-show` signal: the id is below the supply counter (so later creations
cannot collide with it), the registry keys are duplicate-free, and while the
window is registered it is hidden, its once-latch is unfired, it still carries
its seed tab, and no `tab:initWithData` message has reached it. -/
def SeedPending (id : Nat) (tab : TabData) (st : WMState) : Prop :=
  id < st.idCounter
  ∧ (keysOf st.windows).Nodup
  ∧ ∀ w, assocGet st.windows id = some w →
      w.visible = false ∧ w.readyFired = false ∧ w.seedTab = some tab
        ∧ ∀ m ∈ w.inbox, isTabInitMsg m = false

/-- One live window, close-to-tray on, tray callback registered. -/
def trayState : WMState :=
  setTrayVisibilityCallback
    (setCloseToTrayEnabled true (createWindow none none none st0).1)

/-- A single plain `createWindow` from process start. -/
def oneWindowState : WMState :=
  (createWindow none none none st0).1

/-- Two plain `createWindow` calls from process start (ids 0 and 1). -/
def twoWindowState : WMState :=
  (createWindow none none none oneWindowState).1

/-! ## Association-list (JS `Map`) lemmas -/

theorem keysOf_nil : keysOf [] = [] := rfl

theorem keysOf_cons (k : Nat) (v : WindowState) (rest : List (Nat × WindowState)) :
    keysOf ((k, v) :: rest) = k :: keysOf rest := rfl

theorem assocGet_eq_none_iff (l : List (Nat × WindowState)) (k : Nat) :
    assocGet l k = none ↔ k ∉ keysOf l := by
  induction l with
  | nil => simp [assocGet, keysOf_nil]
  | cons p rest ih =>
      obtain ⟨k', v⟩ := p
      by_cases h : k' = k
      · subst h
        simp [assocGet, keysOf_cons]
      · simp [assocGet, keysOf_cons, h, ih, Ne.symm h]

theorem mem_keysOf_of_assocGet {l : List (Nat × WindowState)} {k : Nat}
    {v : WindowState} (h : assocGet l k = some v) : k ∈ keysOf l := by
  by_contra hk
  rw [← assocGet_eq_none_iff] at hk
  rw [h] at hk
  exact Option.noConfusion hk

theorem assocGet_assocSet_self (l : List (Nat × WindowState)) (k : Nat)
    (v : WindowState) : assocGet (assocSet l k v) k = some v := by
  induction l with
  | nil => simp [assocSet, assocGet]
  | cons p rest ih =>
      obtain ⟨k', v'⟩ := p
      by_cases h : k' = k
      · simp [assocSet, assocGet, h]
      · simp [assocSet, assocGet, h, ih]

theorem assocGet_assocSet_ne (l : List (Nat × WindowState)) {k k' : Nat}
    (v : WindowState) (h : k' ≠ k) :
    assocGet (assocSet l k v) k' = assocGet l k' := by
  induction l with
  | nil => simp [assocSet, assocGet, Ne.symm h]
  | cons p rest ih =>
      obtain ⟨k0, v0⟩ := p
      by_cases h0 : k0 = k
      · subst h0
        simp [assocSet, assocGet, Ne.symm h]
      · simp [assocSet, assocGet, h0, ih]

theorem keysOf_assocSet_mem (l : List (Nat × WindowState)) {k : Nat}
    (v : WindowState) (h : k ∈ keysOf l) :
    keysOf (assocSet l k v) = keysOf l := by
  induction l with
  | nil => simp [keysOf_nil] at h
  | cons p rest ih =>
      obtain ⟨k', v'⟩ := p
      by_cases hk : k' = k
      · subst hk
        simp [assocSet, keysOf_cons]
      · rw [keysOf_cons, List.mem_cons] at h
        have hrest : k ∈ keysOf rest := h.resolve_left fun he => hk he.symm
        simp [assocSet, hk, keysOf_cons, ih hrest]

theorem keysOf_assocSet_not_mem (l : List (Nat × WindowState)) {k : Nat}
    (v : WindowState) (h : k ∉ keysOf l) :
    keysOf (assocSet l k v) = keysOf l ++ [k] := by
  induction l with
  | nil => simp [assocSet, keysOf_nil, keysOf_cons]
  | cons p rest ih =>
      obtain ⟨k', v'⟩ := p
      rw [keysOf_cons, List.mem_cons] at h
      obtain ⟨h1, h2⟩ := not_or.mp h
      have hk : ¬ k' = k := fun he => h1 he.symm
      simp [assocSet, hk, keysOf_cons, ih h2]

theorem keysOf_assocSet_nodup (l : List (Nat × WindowState)) (k : Nat)
    (v : WindowState) (h : (keysOf l).Nodup) :
    (keysOf (assocSet l k v)).Nodup := by
  by_cases hk : k ∈ keysOf l
  · rw [keysOf_assocSet_mem l v hk]
    exact h
  · rw [keysOf_assocSet_not_mem l v hk]
    simp [List.nodup_append, h, hk]

theorem keysOf_assocRemove (l : List (Nat × WindowState)) (k : Nat) :
    keysOf (assocRemove l k) = (keysOf l).erase k := by
  induction l with
  | nil => simp [assocRemove, keysOf_nil]
  | cons p rest ih =>
      obtain ⟨k', v'⟩ := p
      by_cases h : k' = k
      · subst h
        simp [assocRemove, keysOf_cons]
      · have hbeq : (k' == k) = false := beq_eq_false_iff_ne.mpr h
        simp [assocRemove, keysOf_cons, h, ih, List.erase_cons, hbeq]

theorem assocGet_assocRemove_self (l : List (Nat × WindowState)) (k : Nat)
    (h : (keysOf l).Nodup) : assocGet (assocRemove l k) k = none := by
  rw [assocGet_eq_none_iff, keysOf_assocRemove]
  exact List.Nodup.not_mem_erase h

theorem keysOf_map (l : List (Nat × WindowState))
    (f : Nat × WindowState → WindowState) :
    keysOf (l.map fun p => (p.1, f p)) = keysOf l := by
  induction l with
  | nil => rfl
  | cons p rest ih =>
      obtain ⟨k', v'⟩ := p
      show k' :: keysOf (rest.map fun p => (p.1, f p)) = k' :: keysOf rest
      rw [ih]

theorem assocGet_map (l : List (Nat × WindowState)) (k : Nat)
    (f : Nat × WindowState → WindowState) :
    assocGet (l.map fun p => (p.1, f p)) k
      = (assocGet l k).map (fun v => f (k, v)) := by
  induction l with
  | nil => rfl
  | cons p rest ih =>
      obtain ⟨k', v'⟩ := p
      by_cases h : k' = k
      · subst h
        simp [assocGet]
      · simp [assocGet, h, ih]

theorem assocGet_assocRemove_ne (l : List (Nat × WindowState)) {k k' : Nat}
    (h : k' ≠ k) : assocGet (assocRemove l k) k' = assocGet l k' := by
  induction l with
  | nil => rfl
  | cons p rest ih =>
      obtain ⟨k0, v0⟩ := p
      by_cases h0 : k0 = k
      · subst h0
        simp [assocRemove, assocGet, Ne.symm h]
      · simp [assocRemove, assocGet, h0, ih]

/-! ## The registry invariant -/

theorem notifyTray_fields (st : WMState) :
    (notifyTray st).windows = st.windows
    ∧ (notifyTray st).usedIds = st.usedIds
    ∧ (notifyTray st).removedIds = st.removedIds
    ∧ (notifyTray st).idCounter = st.idCounter := by
  by_cases h : st.trayCallbackSet <;> simp [notifyTray, h]

theorem inv_of_same_registry {st st' : WMState} (h : Inv st)
    (hw : keysOf st'.windows = keysOf st.windows)
    (hu : st'.usedIds = st.usedIds) (hrm : st'.removedIds = st.removedIds)
    (hc : st'.idCounter = st.idCounter) : Inv st' := by
  obtain ⟨h1, h2, h3⟩ := h
  refine ⟨?_, ?_, ?_⟩
  · rw [hu, hc, h1]
  · rw [hu, hrm]
    exact h2
  · show keysOf st'.windows = _
    rw [hw, hu, hrm]
    exact h3

theorem inv_notifyTray (st : WMState) (h : Inv st) : Inv (notifyTray st) :=
  inv_of_same_registry h (by rw [(notifyTray_fields st).1])
    (notifyTray_fields st).2.1 (notifyTray_fields st).2.2.1
    (notifyTray_fields st).2.2.2

theorem inv_set_mem (st : WMState) (id : Nat) (v : WindowState) (h : Inv st)
    (hmem : id ∈ keysOf st.windows) :
    Inv { st with windows := assocSet st.windows id v } :=
  inv_of_same_registry h (keysOf_assocSet_mem st.windows v hmem) rfl rfl rfl

theorem inv_map (st : WMState) (f : Nat × WindowState → WindowState) (h : Inv st) :
    Inv { st with windows := st.windows.map fun p => (p.1, f p) } :=
  inv_of_same_registry h (keysOf_map st.windows f) rfl rfl rfl

theorem inv_remove (st : WMState) (id : Nat) (h : Inv st)
    (hmem : id ∈ keysOf st.windows) :
    Inv { st with
            windows := assocRemove st.windows id
            removedIds := st.removedIds ++ [id] } := by
  obtain ⟨h1, h2, h3⟩ := h
  have hk : keysOf st.windows
      = st.usedIds.filter (fun i => decide (i ∉ st.removedIds)) := h3
  have husednodup : st.usedIds.Nodup := h1 ▸ List.nodup_range _
  have hidused : id ∈ st.usedIds := by
    rw [hk] at hmem
    exact (List.mem_filter.mp hmem).1
  refine ⟨h1, ?_, ?_⟩
  · exact List.append_subset.mpr ⟨h2, by simpa using hidused⟩
  · show keysOf (assocRemove st.windows id) = _
    rw [keysOf_assocRemove, hk,
      List.Nodup.erase_eq_filter (husednodup.filter _) id, List.filter_filter]
    apply List.filter_congr
    intro i _
    by_cases h1i : i = id
    · simp [h1i]
    · by_cases h2i : i ∈ st.removedIds <;> simp [h1i, h2i]

theorem inv_create (st : WMState) (tabData : Option TabData) (x y : Option Int)
    (h : Inv st) : Inv (createWindow tabData x y st).1 := by
  obtain ⟨h1, h2, h3⟩ := h
  have hk : keysOf st.windows
      = st.usedIds.filter (fun i => decide (i ∉ st.removedIds)) := h3
  have hfresh : st.idCounter ∉ keysOf st.windows := by
    intro hmem
    rw [hk] at hmem
    have := (List.mem_filter.mp hmem).1
    rw [h1] at this
    exact absurd (List.mem_range.mp this) (lt_irrefl _)
  have hfreshrm : st.idCounter ∉ st.removedIds := by
    intro hmem
    have := h2 hmem
    rw [h1] at this
    exact absurd (List.mem_range.mp this) (lt_irrefl _)
  refine ⟨?_, ?_, ?_⟩
  · show st.usedIds ++ [uuidv4 st.idCounter] = List.range (st.idCounter + 1)
    rw [List.range_succ, h1, uuidv4]
  · show st.removedIds ⊆ st.usedIds ++ [uuidv4 st.idCounter]
    exact h2.trans (List.subset_append_left _ _)
  · show keysOf (assocSet st.windows (uuidv4 st.idCounter) _)
      = (st.usedIds ++ [uuidv4 st.idCounter]).filter _
    rw [show uuidv4 st.idCounter = st.idCounter from rfl,
      keysOf_assocSet_not_mem st.windows _ hfresh, List.filter_append, hk,
      List.filter_singleton]
    simp [createWindow, hfreshrm]

theorem inv_step (op : Op) (st : WMState) (h : Inv st) : Inv (step op st) := by
  cases op with
  | create tabData x y => exact inv_create st tabData x y h
  | ready id =>
      show Inv (readyToShow id st)
      cases hget : assocGet st.windows id with
      | none => simpa only [readyToShow, hget] using h
      | some w =>
          by_cases hrf : w.readyFired = true
          · simpa only [readyToShow, hget, hrf, if_true] using h
          · simp only [readyToShow, hget, hrf, if_false, Bool.false_eq_true]
            exact inv_notifyTray _
              (inv_set_mem st id _ h (mem_keysOf_of_assocGet hget))
  | close id =>
      show Inv (requestClose id st)
      cases hget : assocGet st.windows id with
      | none => simpa only [requestClose, hget] using h
      | some w =>
          cases hcond : (st.closeToTrayEnabled && st.windows.length == 1) with
          | true =>
              simp only [requestClose, hget, hcond, if_true]
              exact inv_notifyTray _
                (inv_set_mem st id _ h (mem_keysOf_of_assocGet hget))
          | false =>
              simp only [requestClose, hget, hcond, if_false, Bool.false_eq_true]
              exact inv_notifyTray _
                (inv_remove st id h (mem_keysOf_of_assocGet hget))
  | emit payload => exact inv_map st _ h
  | transfer id tabData =>
      show Inv (transferTab id tabData st)
      cases hget : assocGet st.windows id with
      | none => simpa only [transferTab, hget] using h
      | some w =>
          simp only [transferTab, hget]
          exact inv_set_mem st id _ h (mem_keysOf_of_assocGet hget)
  | indicator id visible =>
      show Inv (showDropIndicator id visible st)
      cases hget : assocGet st.windows id with
      | none => simpa only [showDropIndicator, hget] using h
      | some w =>
          simp only [showDropIndicator, hget]
          exact inv_set_mem st id _ h (mem_keysOf_of_assocGet hget)
  | style s => exact inv_map st _ h
  | closeToTray enabled => exact inv_of_same_registry h rfl rfl rfl rfl
  | trayCallback => exact inv_of_same_registry h rfl rfl rfl rfl

theorem inv_run (ops : List Op) (st : WMState) (h : Inv st) : Inv (run ops st) := by
  induction ops generalizing st with
  | nil => exact h
  | cons op rest ih => exact ih _ (inv_step op st h)

theorem inv_init (platform : Platform) (dark sBM bmT : Bool) :
    Inv (initState platform dark sBM bmT) :=
  ⟨rfl, by simp [initState], rfl⟩

theorem headKey_lookup (l : List (Nat × WindowState)) :
    ((keysOf l).head?).bind (fun i => assocGet l i) = l.head?.map Prod.snd := by
  cases l with
  | nil => rfl
  | cons p rest =>
      obtain ⟨k, v⟩ := p
      simp [keysOf_cons, assocGet]

/-! ## The pending-seed invariant (creation to readiness) -/

theorem applyWindowStyle_fields (platform : Platform) (sbm th : Bool)
    (s : UIStyle) (w : WindowState) :
    (applyWindowStyle platform sbm th s w).visible = w.visible
    ∧ (applyWindowStyle platform sbm th s w).readyFired = w.readyFired
    ∧ (applyWindowStyle platform sbm th s w).seedTab = w.seedTab
    ∧ (applyWindowStyle platform sbm th s w).inbox = w.inbox := by
  by_cases hp : platform = Platform.win32 <;>
    cases s <;> cases sbm <;> cases th <;>
      simp [applyWindowStyle, applyWindowStyleTry, hp]

theorem seedPending_notifyTray (id : Nat) (tab : TabData) (st : WMState)
    (h : SeedPending id tab st) : SeedPending id tab (notifyTray st) := by
  unfold notifyTray
  split
  · exact h
  · exact h

theorem seedPending_set_other (id : Nat) (tab : TabData) (st : WMState)
    (idr : Nat) (v : WindowState) (h : SeedPending id tab st)
    (hne : idr ≠ id) :
    SeedPending id tab { st with windows := assocSet st.windows idr v } := by
  obtain ⟨hc, hnd, hP⟩ := h
  refine ⟨hc, keysOf_assocSet_nodup st.windows idr v hnd, ?_⟩
  intro w hw
  have hw' : assocGet (assocSet st.windows idr v) id = some w := hw
  rw [assocGet_assocSet_ne st.windows v (Ne.symm hne)] at hw'
  exact hP w hw'

theorem seedPending_set_self (id : Nat) (tab : TabData) (st : WMState)
    (w v : WindowState) (h : SeedPending id tab st)
    (hget : assocGet st.windows id = some w)
    (hv : (v.visible = w.visible ∨ v.visible = false)
      ∧ v.readyFired = w.readyFired ∧ v.seedTab = w.seedTab
      ∧ ∀ m ∈ v.inbox, m ∈ w.inbox ∨ isTabInitMsg m = false) :
    SeedPending id tab { st with windows := assocSet st.windows id v } := by
  obtain ⟨hc, hnd, hP⟩ := h
  obtain ⟨hP1, hP2, hP3, hP4⟩ := hP w hget
  obtain ⟨hv1, hv2, hv3, hv4⟩ := hv
  refine ⟨hc, keysOf_assocSet_nodup st.windows id v hnd, ?_⟩
  intro w' hw'
  have hw'' : assocGet (assocSet st.windows id v) id = some w' := hw'
  rw [assocGet_assocSet_self] at hw''
  cases hw''
  refine ⟨?_, hv2.trans hP2, hv3.trans hP3, ?_⟩
  · cases hv1 with
    | inl he => rw [he, hP1]
    | inr he => exact he
  · intro m hm
    cases hv4 m hm with
    | inl hin => exact hP4 m hin
    | inr hfalse => exact hfalse

theorem seedPending_map (id : Nat) (tab : TabData) (st : WMState)
    (f : Nat × WindowState → WindowState)
    (hf : ∀ p : Nat × WindowState,
      (f p).visible = p.2.visible ∧ (f p).readyFired = p.2.readyFired
      ∧ (f p).seedTab = p.2.seedTab
      ∧ ∀ m ∈ (f p).inbox, m ∈ p.2.inbox ∨ isTabInitMsg m = false)
    (h : SeedPending id tab st) :
    SeedPending id tab { st with windows := st.windows.map fun p => (p.1, f p) } := by
  obtain ⟨hc, hnd, hP⟩ := h
  refine ⟨hc, ?_, ?_⟩
  · show (keysOf (st.windows.map fun p => (p.1, f p))).Nodup
    rw [keysOf_map]
    exact hnd
  · intro w hw
    have hw' : assocGet (st.windows.map fun p => (p.1, f p)) id = some w := hw
    rw [assocGet_map] at hw'
    cases hg : assocGet st.windows id with
    | none => rw [hg] at hw'; exact absurd hw' (by simp)
    | some v =>
        rw [hg] at hw'
        have hwv : f (id, v) = w := by simpa using hw'
        obtain ⟨hP1, hP2, hP3, hP4⟩ := hP v hg
        obtain ⟨hf1, hf2, hf3, hf4⟩ := hf (id, v)
        rw [← hwv]
        refine ⟨hf1.trans hP1, hf2.trans hP2, hf3.trans hP3, ?_⟩
        intro m hm
        cases hf4 m hm with
        | inl hin => exact hP4 m hin
        | inr hfalse => exact hfalse

theorem seedPending_remove (id : Nat) (tab : TabData) (st : WMState)
    (idr : Nat) (h : SeedPending id tab st) :
    SeedPending id tab
      { st with
          windows := assocRemove st.windows idr
          removedIds := st.removedIds ++ [idr] } := by
  obtain ⟨hc, hnd, hP⟩ := h
  refine ⟨hc, ?_, ?_⟩
  · show (keysOf (assocRemove st.windows idr)).Nodup
    rw [keysOf_assocRemove]
    exact List.Nodup.erase idr hnd
  · intro w hw
    have hw' : assocGet (assocRemove st.windows idr) id = some w := hw
    by_cases hir : idr = id
    · subst hir
      rw [assocGet_assocRemove_self st.windows idr hnd] at hw'
      cases hw'
    · rw [assocGet_assocRemove_ne st.windows (fun he => hir he.symm)] at hw'
      exact hP w hw'

theorem seedPending_step (id : Nat) (tab : TabData) (op : Op) (st : WMState)
    (h : SeedPending id tab st) (hop : op ≠ Op.ready id) :
    SeedPending id tab (step op st) := by
  cases op with
  | create tabData x y =>
      obtain ⟨hc, hnd, hP⟩ := h
      refine ⟨Nat.lt_succ_of_lt hc,
        keysOf_assocSet_nodup st.windows (uuidv4 st.idCounter)
          (newWindowState st tabData x y) hnd, ?_⟩
      intro w hw
      have hw' : assocGet (assocSet st.windows (uuidv4 st.idCounter)
          (newWindowState st tabData x y)) id = some w := hw
      rw [assocGet_assocSet_ne st.windows (newWindowState st tabData x y)
        (show id ≠ uuidv4 st.idCounter from Nat.ne_of_lt hc)] at hw'
      exact hP w hw'
  | ready idr =>
      have hne : idr ≠ id := fun he => hop (by rw [he])
      show SeedPending id tab (readyToShow idr st)
      cases hget : assocGet st.windows idr with
      | none => simpa only [readyToShow, hget] using h
      | some w =>
          by_cases hrf : w.readyFired = true
          · simpa only [readyToShow, hget, hrf, if_true] using h
          · simp only [readyToShow, hget, hrf, if_false, Bool.false_eq_true]
            exact seedPending_notifyTray id tab _
              (seedPending_set_other id tab st idr (readyWindow w) h hne)
  | close idr =>
      show SeedPending id tab (requestClose idr st)
      cases hget : assocGet st.windows idr with
      | none => simpa only [requestClose, hget] using h
      | some w =>
          cases hcond : (st.closeToTrayEnabled && st.windows.length == 1) with
          | true =>
              simp only [requestClose, hget, hcond, if_true]
              by_cases hir : idr = id
              · rw [hir]
                exact seedPending_notifyTray id tab _
                  (seedPending_set_self id tab st w { w with visible := false }
                    h (hir ▸ hget) ⟨Or.inr rfl, rfl, rfl, fun m hm => Or.inl hm⟩)
              · exact seedPending_notifyTray id tab _
                  (seedPending_set_other id tab st idr _ h hir)
          | false =>
              simp only [requestClose, hget, hcond, if_false, Bool.false_eq_true]
              exact seedPending_notifyTray id tab _
                (seedPending_remove id tab st idr h)
  | emit payload =>
      refine seedPending_map id tab st _ ?_ h
      intro p
      refine ⟨rfl, rfl, rfl, ?_⟩
      intro m hm
      cases List.mem_append.mp hm with
      | inl hin => exact Or.inl hin
      | inr hrep =>
          rw [List.eq_of_mem_replicate hrep]
          exact Or.inr rfl
  | transfer idr tabData =>
      show SeedPending id tab (transferTab idr tabData st)
      cases hget : assocGet st.windows idr with
      | none => simpa only [transferTab, hget] using h
      | some w =>
          simp only [transferTab, hget]
          by_cases hir : idr = id
          · rw [hir]
            refine seedPending_set_self id tab st w
              { w with inbox := w.inbox ++ [RendererMsg.tabReceive tabData] }
              h (hir ▸ hget) ⟨Or.inl rfl, rfl, rfl, ?_⟩
            intro m hm
            cases List.mem_append.mp hm with
            | inl hin => exact Or.inl hin
            | inr hone =>
                rw [List.mem_singleton.mp hone]
                exact Or.inr rfl
          · exact seedPending_set_other id tab st idr _ h hir
  | indicator idr visible =>
      show SeedPending id tab (showDropIndicator idr visible st)
      cases hget : assocGet st.windows idr with
      | none => simpa only [showDropIndicator, hget] using h
      | some w =>
          simp only [showDropIndicator, hget]
          by_cases hir : idr = id
          · rw [hir]
            refine seedPending_set_self id tab st w
              { w with inbox := w.inbox ++ [RendererMsg.dropIndicator visible] }
              h (hir ▸ hget) ⟨Or.inl rfl, rfl, rfl, ?_⟩
            intro m hm
            cases List.mem_append.mp hm with
            | inl hin => exact Or.inl hin
            | inr hone =>
                rw [List.mem_singleton.mp hone]
                exact Or.inr rfl
          · exact seedPending_set_other id tab st idr _ h hir
  | style s =>
      refine seedPending_map id tab st _ ?_ h
      intro p
      obtain ⟨h1, h2, h3, h4⟩ := applyWindowStyle_fields st.platform
        st.supportsBackgroundMaterial st.backgroundMaterialThrows s p.2
      refine ⟨h1, h2, h3, ?_⟩
      intro m hm
      rw [h4] at hm
      exact Or.inl hm
  | closeToTray enabled => exact h
  | trayCallback => exact h

theorem seedPending_run (id : Nat) (tab : TabData) (ops : List Op)
    (st : WMState) (h : SeedPending id tab st)
    (hops : ∀ op ∈ ops, op ≠ Op.ready id) :
    SeedPending id tab (run ops st) := by
  induction ops generalizing st with
  | nil => exact h
  | cons op rest ih =>
      exact ih _ (seedPending_step id tab op st h (hops op (List.mem_cons_self _ _)))
        (fun o ho => hops o (List.mem_cons_of_mem op ho))

theorem seedPending_create (st : WMState) (tab : TabData) (x y : Option Int)
    (hnd : (keysOf st.windows).Nodup) :
    SeedPending (createWindow (some tab) x y st).2 tab
      (createWindow (some tab) x y st).1 := by
  refine ⟨Nat.lt_succ_self _, keysOf_assocSet_nodup st.windows
    (uuidv4 st.idCounter) (newWindowState st (some tab) x y) hnd, ?_⟩
  intro w hw
  have hw' : assocGet (assocSet st.windows (uuidv4 st.idCounter)
      (newWindowState st (some tab) x y)) (uuidv4 st.idCounter) = some w := hw
  rw [assocGet_assocSet_self] at hw'
  cases hw'
  exact ⟨rfl, rfl, rfl, by intro m hm; cases hm⟩

theorem run_append_single (ops : List Op) (op : Op) (st : WMState) :
    run (ops ++ [op]) st = step op (run ops st) := by
  unfold run
  rw [List.foldl_append]
  rfl

/-! ## Claim theorems -/

/-- Claim C1 (code bug): with two windows registered after two `createWindow`
calls, a single backend emission delivers the event TWICE to each window, not
exactly once — `createWindow` registers one `zmqBridge.onEvent` forwarding
handler per call, so after n creations every emission is forwarded n times to
every registered window. -/
theorem c1_single_emission_delivered_twice :
    getAllIds twoWindowState = [0, 1]
    ∧ twoWindowState.eventHandlers = 2
    ∧ (getWindow 0 (emitBackendEvent 7 twoWindowState)).map WindowState.inbox
        = some [RendererMsg.xpEvent 7, RendererMsg.xpEvent 7]
    ∧ (getWindow 1 (emitBackendEvent 7 twoWindowState)).map WindowState.inbox
        = some [RendererMsg.xpEvent 7, RendererMsg.xpEvent 7] :=
  ⟨rfl, rfl, rfl, rfl⟩

/-- Claim C2 (code bug): the `window:transferTab` handler with a target id
that does not resolve in the registry is a silent no-op — the state is
unchanged, so no new window is created and the tab payload is delivered
nowhere (it is dropped), though indeed no error is raised. -/
theorem c2_stale_transfer_target_drops_tab :
    assocGet oneWindowState.windows 5 = none
    ∧ transferTab 5 sampleTab oneWindowState = oneWindowState
    ∧ getAllIds (transferTab 5 sampleTab oneWindowState) = [0] :=
  ⟨rfl, rfl, rfl⟩

/-- Claim C3 (code bug): after `window:setUIStyle('glass')` the stored style
is `glass`, yet a subsequent `createWindow` produces a window whose state is
exactly the one produced from the untouched `classic` start state: no message
(in particular no style signal) is sent to it and no background material is
applied — `createWindow` never reads `currentUIStyle`. -/
theorem c3_new_window_ignores_stored_style :
    (setUIStyle UIStyle.glass st0).currentUIStyle = UIStyle.glass
    ∧ getWindow (createWindow none none none (setUIStyle UIStyle.glass st0)).2
        (createWindow none none none (setUIStyle UIStyle.glass st0)).1
      = some freshWin32Window
    ∧ getWindow (createWindow none none none st0).2
        (createWindow none none none st0).1
      = some freshWin32Window
    ∧ freshWin32Window.inbox = []
    ∧ freshWin32Window.backgroundMaterial = none :=
  ⟨rfl, rfl, rfl, rfl, rfl⟩

/-- Claim C6: a window created seeded with a tab is shown only after its
`ready-to-show` signal and its seed tab is delivered only by that signal's
continuation: over any history of operations that does not contain the
window's readiness signal, the window (while registered) stays invisible and
has received no `tab:initWithData` message; appending the readiness signal
makes it visible with the seed tab delivered as the last message. -/
theorem c6_show_and_seed_only_after_ready (st : WMState) (tab : TabData)
    (x y : Option Int) (ops : List Op)
    (hnd : (keysOf st.windows).Nodup)
    (hready : Op.ready (createWindow (some tab) x y st).2 ∉ ops) :
    (∀ w, getWindow (createWindow (some tab) x y st).2
        (run ops (createWindow (some tab) x y st).1) = some w →
        w.visible = false ∧ ∀ m ∈ w.inbox, isTabInitMsg m = false)
    ∧ (∀ w, getWindow (createWindow (some tab) x y st).2
          (run (ops ++ [Op.ready (createWindow (some tab) x y st).2])
            (createWindow (some tab) x y st).1) = some w →
        w.visible = true
          ∧ w.inbox.getLast? = some (RendererMsg.tabInitWithData tab)) := by
  set i := (createWindow (some tab) x y st).2 with hi
  set st1 := (createWindow (some tab) x y st).1 with hst1
  have hpend := seedPending_run i tab ops st1
    (seedPending_create st tab x y hnd) (fun o ho he => hready (he ▸ ho))
  obtain ⟨hc, hnd2, hP⟩ := hpend
  constructor
  · intro w hw
    obtain ⟨h1, _, _, h4⟩ := hP w hw
    exact ⟨h1, h4⟩
  · intro w hw
    rw [run_append_single] at hw
    cases hg : assocGet (run ops st1).windows i with
    | none =>
        have hw' : assocGet (readyToShow i (run ops st1)).windows i = some w := hw
        rw [show readyToShow i (run ops st1) = run ops st1 by
          simp [readyToShow, hg]] at hw'
        rw [hg] at hw'
        cases hw'
    | some v =>
        obtain ⟨hv1, hv2, hv3, hv4⟩ := hP v hg
        have hw' : assocGet (readyToShow i (run ops st1)).windows i = some w := hw
        rw [show readyToShow i (run ops st1) = notifyTray { run ops st1 with
            windows := assocSet (run ops st1).windows i (readyWindow v) } by
          simp [readyToShow, hg, hv2]] at hw'
        rw [(notifyTray_fields _).1] at hw'
        have hw'' : assocGet (assocSet (run ops st1).windows i (readyWindow v)) i
            = some w := hw'
        rw [assocGet_assocSet_self] at hw''
        cases hw''
        refine ⟨rfl, ?_⟩
        show (readyWindow v).inbox.getLast? = _
        simp only [readyWindow, hv3]
        exact List.getLast?_concat _

/-- Witness for C6: seeded creation from `st0`, one interleaved backend
emission before the readiness signal. -/
theorem c6_show_and_seed_only_after_ready_witness :
    (∀ w, getWindow (createWindow (some sampleTab) none none st0).2
        (run [Op.emit 3] (createWindow (some sampleTab) none none st0).1) = some w →
        w.visible = false ∧ ∀ m ∈ w.inbox, isTabInitMsg m = false)
    ∧ (∀ w, getWindow (createWindow (some sampleTab) none none st0).2
          (run ([Op.emit 3]
              ++ [Op.ready (createWindow (some sampleTab) none none st0).2])
            (createWindow (some sampleTab) none none st0).1) = some w →
        w.visible = true
          ∧ w.inbox.getLast? = some (RendererMsg.tabInitWithData sampleTab)) :=
  c6_show_and_seed_only_after_ready st0 sampleTab none none [Op.emit 3]
    (by decide) (by decide)

/-- Claim C5: over every history of operations from process start, the
`window:getAllIds` view of the registry is exactly the (creation-ordered)
list of ids issued so far minus those removed by the `closed` handler, and no
id is ever issued twice over the process lifetime. -/
theorem c5_registry_exact_ids_never_reused (platform : Platform)
    (dark sBM bmT : Bool) (ops : List Op) :
    getAllIds (run ops (initState platform dark sBM bmT))
      = (run ops (initState platform dark sBM bmT)).usedIds.filter
          (fun i =>
            decide (i ∉ (run ops (initState platform dark sBM bmT)).removedIds))
    ∧ (run ops (initState platform dark sBM bmT)).usedIds.Nodup := by
  have h := inv_run ops _ (inv_init platform dark sBM bmT)
  refine ⟨h.2.2, ?_⟩
  rw [h.1]
  exact List.nodup_range _

/-- Claim C9: `getMainWindow` returns the window of the earliest-created id
still present in the registry (the registry is in creation order, so this is
its first entry), and `null` exactly when the registry is empty. -/
theorem c9_getMainWindow_earliest_surviving (platform : Platform)
    (dark sBM bmT : Bool) (ops : List Op) :
    getMainWindow (run ops (initState platform dark sBM bmT))
      = (((run ops (initState platform dark sBM bmT)).usedIds.filter
            (fun i =>
              decide (i ∈ getAllIds (run ops (initState platform dark sBM bmT))))).head?).bind
          (fun i => getWindow i (run ops (initState platform dark sBM bmT)))
    ∧ (getMainWindow (run ops (initState platform dark sBM bmT)) = none
        ↔ getAllIds (run ops (initState platform dark sBM bmT)) = []) := by
  set st := run ops (initState platform dark sBM bmT) with hst
  have h := inv_run ops _ (inv_init platform dark sBM bmT)
  rw [← hst] at h
  have hk : keysOf st.windows
      = st.usedIds.filter (fun i => decide (i ∉ st.removedIds)) := h.2.2
  have hfilter : st.usedIds.filter (fun i => decide (i ∈ getAllIds st))
      = keysOf st.windows := by
    rw [hk]
    apply List.filter_congr
    intro i hi
    by_cases hp : i ∈ st.removedIds
    · simp [getAllIds, hk, List.mem_filter, hp]
    · simp [getAllIds, hk, List.mem_filter, hp, hi]
  constructor
  · rw [hfilter]
    simp only [getWindow]
    rw [headKey_lookup]
    rfl
  · cases hw : st.windows with
    | nil => simp [getMainWindow, getAllIds, keysOf, hw]
    | cons p rest => simp [getMainWindow, getAllIds, keysOf, hw]

/-- Claim C7: `window:setUIStyle` stores the new style and applies it (not
the previous stored value) via `applyWindowStyle` to every window registered
at call time; and the `catch` makes per-window application total — when the
`try` body throws, the window simply keeps the state it had reached, and the
operation as a whole still returns. -/
theorem c7_setStyle_stores_applies_never_fails (s : UIStyle) (st : WMState) :
    (setUIStyle s st).currentUIStyle = s
    ∧ (setUIStyle s st).windows = st.windows.map (fun p =>
        (p.1, applyWindowStyle st.platform st.supportsBackgroundMaterial
          st.backgroundMaterialThrows s p.2))
    ∧ ∀ w w', st.platform = Platform.win32 →
        applyWindowStyleTry st.supportsBackgroundMaterial
          st.backgroundMaterialThrows s w = Except.error w' →
        applyWindowStyle st.platform st.supportsBackgroundMaterial
          st.backgroundMaterialThrows s w = w' := by
  refine ⟨rfl, rfl, ?_⟩
  intro w w' hp herr
  rw [hp]
  simp [applyWindowStyle, herr]

/-- Claim C8: a registry lookup miss is answered with `none`/`null`, never an
error: both `WindowManager.getWindow` and the `window:getBounds` handler
return `none` for any id not in the registry. -/
theorem c8_lookup_miss_returns_none (st : WMState) (id : Nat)
    (h : id ∉ getAllIds st) :
    getWindow id st = none ∧ getBoundsHandler id st = none := by
  have hg : assocGet st.windows id = none :=
    (assocGet_eq_none_iff st.windows id).mpr h
  exact ⟨hg, by simp [getBoundsHandler, hg]⟩

/-- Witness for C8 at the empty registry and id 3. -/
theorem c8_lookup_miss_returns_none_witness :
    getWindow 3 st0 = none ∧ getBoundsHandler 3 st0 = none :=
  c8_lookup_miss_returns_none st0 3 (by decide)

/-- Claim C4: a close request on a registered window is intercepted (close
prevented, window hidden but still registered under its id) exactly when
close-to-tray is enabled and the registry holds exactly one window, and the
registered tray controller is notified exactly once; in every other case the
close proceeds — the window is deleted from the registry by the `closed`
handler and the controller is then notified exactly once as well. -/
theorem c4_close_to_tray_interception (st : WMState) (id : Nat)
    (w : WindowState) (hnd : (keysOf st.windows).Nodup)
    (hget : assocGet st.windows id = some w)
    (hcb : st.trayCallbackSet = true) :
    (st.closeToTrayEnabled = true ∧ st.windows.length = 1 →
        getWindow id (requestClose id st) = some { w with visible := false }
        ∧ getAllIds (requestClose id st) = getAllIds st
        ∧ (requestClose id st).trayNotifications = st.trayNotifications + 1)
    ∧ (¬ (st.closeToTrayEnabled = true ∧ st.windows.length = 1) →
        getWindow id (requestClose id st) = none
        ∧ getAllIds (requestClose id st) = (getAllIds st).erase id
        ∧ (requestClose id st).trayNotifications = st.trayNotifications + 1) := by
  cases hcond : (st.closeToTrayEnabled && st.windows.length == 1) with
  | true =>
      have hprop : st.closeToTrayEnabled = true ∧ st.windows.length = 1 := by
        simpa using hcond
      have hred : requestClose id st =
          notifyTray { st with
            windows := assocSet st.windows id { w with visible := false } } := by
        simp [requestClose, hget, hcond]
      refine ⟨fun _ => ?_, fun hn => absurd hprop hn⟩
      rw [hred]
      refine ⟨?_, ?_, ?_⟩
      · simp [notifyTray, hcb, getWindow, assocGet_assocSet_self]
      · simp [notifyTray, hcb, getAllIds,
          keysOf_assocSet_mem st.windows _ (mem_keysOf_of_assocGet hget)]
      · simp [notifyTray, hcb]
  | false =>
      have hprop : ¬ (st.closeToTrayEnabled = true ∧ st.windows.length = 1) := by
        rintro ⟨h1, h2⟩
        simp [h1, h2] at hcond
      have hred : requestClose id st =
          notifyTray { st with
            windows := assocRemove st.windows id
            removedIds := st.removedIds ++ [id] } := by
        simp [requestClose, hget, hcond]
      refine ⟨fun hx => absurd hx hprop, fun _ => ?_⟩
      rw [hred]
      refine ⟨?_, ?_, ?_⟩
      · simp [notifyTray, hcb, getWindow, assocGet_assocRemove_self _ _ hnd]
      · simp [notifyTray, hcb, getAllIds, keysOf_assocRemove]
      · simp [notifyTray, hcb]

/-- Witness for C4: one live window, close-to-tray on, callback registered. -/
theorem c4_close_to_tray_interception_witness :
    (trayState.closeToTrayEnabled = true ∧ trayState.windows.length = 1 →
        getWindow 0 (requestClose 0 trayState)
          = some { freshWin32Window with visible := false }
        ∧ getAllIds (requestClose 0 trayState) = getAllIds trayState
        ∧ (requestClose 0 trayState).trayNotifications
          = trayState.trayNotifications + 1)
    ∧ (¬ (trayState.closeToTrayEnabled = true ∧ trayState.windows.length = 1) →
        getWindow 0 (requestClose 0 trayState) = none
        ∧ getAllIds (requestClose 0 trayState) = (getAllIds trayState).erase 0
        ∧ (requestClose 0 trayState).trayNotifications
          = trayState.trayNotifications + 1) :=
  c4_close_to_tray_interception trayState 0 freshWin32Window
    (by decide) (by decide) (by decide)

/-- Claim C10: `window:setUIStyle` is idempotent on the stored style, and a
second call with the very style just stored still re-applies it to every
registered window — the broadcast is unconditional (only a log line is gated
on the style having changed). -/
theorem c10_setStyle_idempotent_rebroadcasts (s : UIStyle) (st : WMState) :
    (setUIStyle s (setUIStyle s st)).currentUIStyle
      = (setUIStyle s st).currentUIStyle
    ∧ (setUIStyle s (setUIStyle s st)).windows
      = (setUIStyle s st).windows.map (fun p =>
          (p.1, applyWindowStyle st.platform st.supportsBackgroundMaterial
            st.backgroundMaterialThrows s p.2)) :=
  ⟨rfl, rfl⟩

end Xplorer
